import Mathlib

/-!
Shallow embedding of the user-management slice of the Koa server template:
the validation layer (src/models/user/user.validation.js), the repository
(src/models/user/user.repository.js, UserRepository), the Sequelize model
hooks and instance methods (src/models/user/user.model.js) and the service
(UserService).  JS strings are Lean strings over their characters (all
characters relevant to the claims are in the basic multilingual plane, where
the JS UTF-16 length agrees with the character count); absent JS object
fields are `none`; JS numbers in plain decimal notation are exact decimal
fractions (`JsNum`); the clock and the autoincrement id are threaded as
explicit arguments.
-/

namespace UserMgmt

/-! ## JS primitives -/

/-- One decimal digit character: `digitChar m` renders `m % 10`. -/
def digitChar (n : Nat) : Char := Char.ofNat (48 + n % 10)

/-- Decimal digits of `n`, most significant first, by fuel-bounded recursion
(`fuel ≥ 1` and `fuel ≥ n` always suffice, since `n / 10 < n`). -/
def natToDigitsAux (fuel : Nat) (n : Nat) : List Char :=
  match fuel with
  | 0 => []
  | fuel + 1 =>
    if n < 10 then [digitChar n]
    else natToDigitsAux fuel (n / 10) ++ [digitChar n]

/-- Decimal rendering of a natural number (the model of JS number-to-string
for nonnegative integers). -/
def natRepr (n : Nat) : String := ⟨natToDigitsAux (n + 1) n⟩

/-- ASCII lowercasing of one character, as `String.prototype.toLowerCase`
acts on the ASCII range (the repository only lowercases email addresses). -/
def jsCharToLower (c : Char) : Char :=
  if 'A' ≤ c && c ≤ 'Z' then Char.ofNat (c.toNat + 32) else c

/-- Model of `String.prototype.toLowerCase`, restricted to ASCII case
mapping. -/
def jsToLower (s : String) : String := ⟨s.data.map jsCharToLower⟩

/-- A JS number written in plain decimal notation, kept exact:
`mantissa / 10 ^ shift`.  Every value the claims touch (integers and 1.5)
is represented exactly both here and in an IEEE double. -/
structure JsNum where
  mantissa : Int
  shift : Nat
deriving DecidableEq

/-- The integer `n` as a JS number. -/
def JsNum.ofNat (n : Nat) : JsNum := ⟨(n : Int), 0⟩

/-- Model of the global `parseInt` applied to a finite number rendered in
plain decimal notation: the digits before the decimal point are kept, which
truncates the value toward zero (`Int.tdiv`). -/
def JsNum.parseInt (x : JsNum) : Int := Int.tdiv x.mantissa ((10 : Int) ^ x.shift)

/-- Exact subtraction of decimal numbers. -/
def JsNum.sub (x y : JsNum) : JsNum :=
  ⟨x.mantissa * (10 : Int) ^ y.shift - y.mantissa * (10 : Int) ^ x.shift, x.shift + y.shift⟩

/-- Exact multiplication of decimal numbers. -/
def JsNum.mul (x y : JsNum) : JsNum := ⟨x.mantissa * y.mantissa, x.shift + y.shift⟩

/-- Model of `Math.ceil` applied to the exact quotient `a / b` (used by the
repository to compute the page count, where `b > 0`): the negated floor of
the negated fraction, with `Int./` the floor division for positive `b`. -/
def ceilQuot (a b : Int) : Int := -((-a) / b)

/-- The characters the `\s` class of a JS regular expression matches. -/
def isJsSpace (c : Char) : Bool :=
  c = ' ' || c = '\t' || c = '\n' || c = '\x0b' || c = '\x0c' || c = '\r' ||
  c = '\u00a0' || c = '\u1680' || ('\u2000' ≤ c && c ≤ '\u200a') ||
  c = '\u2028' || c = '\u2029' || c = '\u202f' || c = '\u205f' || c = '\u3000' ||
  c = '\ufeff'

/-- Whether `pre` is a leading segment of `l`. -/
def prefixTest : List Char → List Char → Bool
  | [], _ => true
  | _ :: _, [] => false
  | a :: as, b :: bs => a = b && prefixTest as bs

/-- Whether `needle` occurs contiguously inside `l`. -/
def infixTest (needle : List Char) : List Char → Bool
  | [] => needle.isEmpty
  | c :: rest => prefixTest needle (c :: rest) || infixTest needle rest

/-- Model of the SQL `LIKE '%kw%'` filter the search endpoint issues:
substring containment (the reference store's collation folds ASCII case;
the claims settled here do not depend on case folding). -/
def sqlLikeContains (kw : String) (s : String) : Bool :=
  kw.data.isEmpty || infixTest kw.data s.data

/-- A JS value is falsy for `if (x)` when it is absent or the empty
string (the two cases arising for the optional string fields here). -/
def isFalsyStr : Option String → Bool
  | none => true
  | some s => s = ""

/-! ## Validation layer (user.validation.js) -/

/-- The pass/fail shape every validator returns: `{ isValid, errors }`. -/
structure ValidationResult where
  isValid : Bool
  errors : List String
deriving DecidableEq

/-- The class `[a-zA-Z0-9_]` of the username pattern. -/
def usernameChar (c : Char) : Bool := c.isAlpha || c.isDigit || c = '_'

/-- `validateUsername`: required, length 3..50, charset `[a-zA-Z0-9_]+`,
not starting with a digit. -/
def validateUsername (username : Option String) : ValidationResult :=
  let errors :=
    if isFalsyStr username then ["用户名不能为空"]
    else
      let u := username.getD ""
      (if u.length < 3 then ["用户名长度不能少于3个字符"] else []) ++
      (if u.length > 50 then ["用户名长度不能超过50个字符"] else []) ++
      (if !(!u.data.isEmpty && u.data.all usernameChar) then
        ["用户名只能包含字母、数字和下划线"] else []) ++
      (if (match u.data with | c :: _ => c.isDigit | [] => false) then
        ["用户名不能以数字开头"] else [])
  ⟨errors.isEmpty, errors⟩

/-- A character of the `[^\s@]` class of the email pattern. -/
def emailChar (c : Char) : Bool := !isJsSpace c && c ≠ '@'

/-- Whether `/^[^\s@]+@[^\s@]+\.[^\s@]+$/` matches `s`: some decomposition
local `@` middle `.` tail with all three parts nonempty over `[^\s@]`. -/
def emailRegexTest (s : String) : Bool :=
  let cs := s.data
  (List.range cs.length).any fun i =>
    (List.range cs.length).any fun j =>
      decide (1 ≤ i) && decide (i + 2 ≤ j) && decide (j + 1 < cs.length) &&
      cs.getD i ' ' = '@' && cs.getD j ' ' = '.' &&
      (cs.take i).all emailChar &&
      ((cs.drop (i + 1)).take (j - i - 1)).all emailChar &&
      (cs.drop (j + 1)).all emailChar

/-- `validateEmail`: required, simple `local@domain.tld` pattern,
length at most 100. -/
def validateEmail (email : Option String) : ValidationResult :=
  let errors :=
    if isFalsyStr email then ["邮箱地址不能为空"]
    else
      let e := email.getD ""
      (if !emailRegexTest e then ["邮箱地址格式不正确"] else []) ++
      (if e.length > 100 then ["邮箱地址长度不能超过100个字符"] else [])
  ⟨errors.isEmpty, errors⟩

/-- The special-character class `[@$!%*?&]` of the password rules. -/
def passwordSpecial (c : Char) : Bool :=
  c = '@' || c = '$' || c = '!' || c = '%' || c = '*' || c = '?' || c = '&'

/-- `validatePassword`: required, length 6..128, at least one lowercase
letter, uppercase letter, digit and special character. -/
def validatePassword (password : Option String) : ValidationResult :=
  let errors :=
    if isFalsyStr password then ["密码不能为空"]
    else
      let p := (password.getD "").data
      (if p.length < 6 then ["密码长度不能少于6个字符"] else []) ++
      (if p.length > 128 then ["密码长度不能超过128个字符"] else []) ++
      (if !p.any Char.isLower then ["密码必须包含至少一个小写字母"] else []) ++
      (if !p.any Char.isUpper then ["密码必须包含至少一个大写字母"] else []) ++
      (if !p.any Char.isDigit then ["密码必须包含至少一个数字"] else []) ++
      (if !p.any passwordSpecial then ["密码必须包含至少一个特殊字符(@$!%*?&)"] else [])
  ⟨errors.isEmpty, errors⟩

/-- Whether `/^1[3-9]\d{9}$/` matches: a mainland mobile number. -/
def phoneRegexTest (s : String) : Bool :=
  match s.data with
  | '1' :: c :: rest => ('3' ≤ c && c ≤ '9') && rest.length = 9 && rest.all Char.isDigit
  | _ => false

/-- `validatePhone` (optional field): mainland mobile pattern when given. -/
def validatePhone (phone : Option String) : ValidationResult :=
  let errors :=
    if isFalsyStr phone then []
    else if !phoneRegexTest (phone.getD "") then ["手机号格式不正确"] else []
  ⟨errors.isEmpty, errors⟩

/-- The class `[一-龥a-zA-Z\s]` of the full-name pattern. -/
def fullNameChar (c : Char) : Bool :=
  ('一' ≤ c && c ≤ '龥') || c.isAlpha || isJsSpace c

/-- `validateFullName` (optional field): length 2..100 over CJK/Latin
letters and `\s` when given and nonempty. -/
def validateFullName (fullName : Option String) : ValidationResult :=
  let errors :=
    if isFalsyStr fullName then []
    else
      let f := fullName.getD ""
      (if f.length < 2 then ["真实姓名长度不能少于2个字符"] else []) ++
      (if f.length > 100 then ["真实姓名长度不能超过100个字符"] else []) ++
      (if !(!f.data.isEmpty && f.data.all fullNameChar) then
        ["真实姓名只能包含中文、英文字母和空格"] else [])
  ⟨errors.isEmpty, errors⟩

/-- A calendar date; the clock (`new Date()`) is threaded into the
validators as the current UTC date. -/
structure SimpleDate where
  year : Int
  month : Nat
  day : Nat
deriving DecidableEq

/-- Strict calendar order on dates.  `new Date(birthDate) > now` compares
instants; a date parsed from `YYYY-MM-DD` is its day at midnight, so it
exceeds the clock exactly when its calendar date exceeds the clock's. -/
def dateLtB (a b : SimpleDate) : Bool :=
  a.year < b.year || (a.year = b.year &&
    (a.month < b.month || (a.month = b.month && a.day < b.day)))

/-- Numeric value of a decimal digit character. -/
def digitVal (c : Char) : Nat := c.toNat - 48

/-- Whether a year is a Gregorian leap year. -/
def isLeapYear (y : Int) : Bool := (y % 4 = 0 && y % 100 ≠ 0) || y % 400 = 0

/-- Days in a month of a year. -/
def daysInMonth (y : Int) (m : Nat) : Nat :=
  if m = 2 then (if isLeapYear y then 29 else 28)
  else if m = 4 || m = 6 || m = 9 || m = 11 then 30
  else 31

/-- Model of the external `new Date(string)` parser restricted to the
documented `YYYY-MM-DD` input format: four digits, dash, two digits, dash,
two digits naming a real calendar day; anything else is an invalid date. -/
def parseDate (s : String) : Option SimpleDate :=
  match s.data with
  | [y1, y2, y3, y4, h1, m1, m2, h2, d1, d2] =>
    if y1.isDigit && y2.isDigit && y3.isDigit && y4.isDigit &&
       h1 = '-' && m1.isDigit && m2.isDigit && h2 = '-' && d1.isDigit && d2.isDigit then
      let y : Int := ((digitVal y1 * 1000 + digitVal y2 * 100 + digitVal y3 * 10 + digitVal y4 : Nat) : Int)
      let m := digitVal m1 * 10 + digitVal m2
      let d := digitVal d1 * 10 + digitVal d2
      if 1 ≤ m && m ≤ 12 && 1 ≤ d && d ≤ daysInMonth y m then some ⟨y, m, d⟩ else none
    else none
  | _ => none

/-- `validateBirthDate` (optional field): parseable, not in the future, and
the year difference to the clock within 0..150. -/
def validateBirthDate (today : SimpleDate) (birthDate : Option String) : ValidationResult :=
  let errors :=
    if isFalsyStr birthDate then []
    else
      match parseDate (birthDate.getD "") with
      | none => ["生日格式不正确"]
      | some d =>
        (if dateLtB today d then ["生日不能是未来日期"] else []) ++
        (if today.year - d.year > 150 then ["年龄不能超过150岁"] else []) ++
        (if today.year - d.year < 0 then ["生日不能是未来日期"] else [])
  ⟨errors.isEmpty, errors⟩

/-- The gender enumeration. -/
def validGenders : List String := ["male", "female", "other"]

/-- `validateGender` (optional field): one of the three enum values. -/
def validateGender (gender : Option String) : ValidationResult :=
  let errors :=
    if isFalsyStr gender then []
    else if !validGenders.contains (gender.getD "") then
      ["性别值不正确，只能是 male、female 或 other"] else []
  ⟨errors.isEmpty, errors⟩

/-- The account-status enumeration. -/
def validStatuses : List String := ["active", "inactive", "suspended", "deleted"]

/-- `validateStatus` (optional, update-only field): one of the four enum
values. -/
def validateStatus (status : Option String) : ValidationResult :=
  let errors :=
    if isFalsyStr status then []
    else if !validStatuses.contains (status.getD "") then ["用户状态值不正确"] else []
  ⟨errors.isEmpty, errors⟩

/-- The characters allowed after the first in a URL scheme. -/
def schemeChar (c : Char) : Bool := c.isAlphanum || c = '+' || c = '-' || c = '.'

/-- Model of the external WHATWG `new URL(string)` constructor at the
granularity the validator needs: the string parses when a well-formed
alphabetic-first scheme is followed by a colon. -/
def urlParses (s : String) : Bool :=
  let cs := s.data
  let pre := cs.takeWhile (fun c => c ≠ ':')
  decide (pre.length < cs.length) &&
  (match pre with
   | c :: rest => c.isAlpha && rest.all schemeChar
   | [] => false)

/-- `validateAvatarUrl` (optional field): a parseable URL of length at
most 500. -/
def validateAvatarUrl (avatarUrl : Option String) : ValidationResult :=
  let errors :=
    if isFalsyStr avatarUrl then []
    else
      let u := avatarUrl.getD ""
      if urlParses u then
        (if u.length > 500 then ["头像URL长度不能超过500个字符"] else [])
      else ["头像URL格式不正确"]
  ⟨errors.isEmpty, errors⟩

/-- The creation payload: the validated fields of the JS object handed to
`createUser` (absent keys are `none`; `status` rides along through the
object spread and is otherwise unvalidated at creation). -/
structure CreateData where
  username : Option String := none
  email : Option String := none
  password : Option String := none
  full_name : Option String := none
  phone : Option String := none
  birth_date : Option String := none
  gender : Option String := none
  avatar_url : Option String := none
  status : Option String := none
deriving DecidableEq

/-- `validateUserCreation`: username, email and password are required; the
optional fields are checked only when truthy; error lists are concatenated,
not short-circuited. -/
def validateUserCreation (today : SimpleDate) (d : CreateData) : ValidationResult :=
  let errors :=
    (if !(validateUsername d.username).isValid then (validateUsername d.username).errors else []) ++
    (if !(validateEmail d.email).isValid then (validateEmail d.email).errors else []) ++
    (if !(validatePassword d.password).isValid then (validatePassword d.password).errors else []) ++
    (if !isFalsyStr d.full_name then
      (if !(validateFullName d.full_name).isValid then (validateFullName d.full_name).errors else []) else []) ++
    (if !isFalsyStr d.phone then
      (if !(validatePhone d.phone).isValid then (validatePhone d.phone).errors else []) else []) ++
    (if !isFalsyStr d.birth_date then
      (if !(validateBirthDate today d.birth_date).isValid then (validateBirthDate today d.birth_date).errors else []) else []) ++
    (if !isFalsyStr d.gender then
      (if !(validateGender d.gender).isValid then (validateGender d.gender).errors else []) else []) ++
    (if !isFalsyStr d.avatar_url then
      (if !(validateAvatarUrl d.avatar_url).isValid then (validateAvatarUrl d.avatar_url).errors else []) else [])
  ⟨errors.isEmpty, errors⟩

/-- The update payload handed to `updateUser`: a JS object that may carry
any attribute of the model, validated ones and bookkeeping ones alike (the
service spreads it through to the ORM update). -/
structure UpdateData where
  username : Option String := none
  email : Option String := none
  password : Option String := none
  password_hash : Option String := none
  full_name : Option String := none
  phone : Option String := none
  birth_date : Option String := none
  gender : Option String := none
  status : Option String := none
  avatar_url : Option String := none
  email_verified : Option Bool := none
  email_verified_at : Option Nat := none
  last_login_at : Option Nat := none
  last_login_ip : Option String := none
  login_count : Option Nat := none
deriving DecidableEq

/-- `validateUserUpdate`: every field optional, validated only when the
key is present (`!== undefined`). -/
def validateUserUpdate (today : SimpleDate) (d : UpdateData) : ValidationResult :=
  let errors :=
    (if d.username.isSome then
      (if !(validateUsername d.username).isValid then (validateUsername d.username).errors else []) else []) ++
    (if d.email.isSome then
      (if !(validateEmail d.email).isValid then (validateEmail d.email).errors else []) else []) ++
    (if d.password.isSome then
      (if !(validatePassword d.password).isValid then (validatePassword d.password).errors else []) else []) ++
    (if d.full_name.isSome then
      (if !(validateFullName d.full_name).isValid then (validateFullName d.full_name).errors else []) else []) ++
    (if d.phone.isSome then
      (if !(validatePhone d.phone).isValid then (validatePhone d.phone).errors else []) else []) ++
    (if d.birth_date.isSome then
      (if !(validateBirthDate today d.birth_date).isValid then (validateBirthDate today d.birth_date).errors else []) else []) ++
    (if d.gender.isSome then
      (if !(validateGender d.gender).isValid then (validateGender d.gender).errors else []) else []) ++
    (if d.status.isSome then
      (if !(validateStatus d.status).isValid then (validateStatus d.status).errors else []) else []) ++
    (if d.avatar_url.isSome then
      (if !(validateAvatarUrl d.avatar_url).isValid then (validateAvatarUrl d.avatar_url).errors else []) else [])
  ⟨errors.isEmpty, errors⟩

/-- `validatePaginationParams`: `page` and `limit` are each checked only
when present; the JS code runs them through `parseInt` before the range
comparison, and a finite decimal number never parses to NaN. -/
def validatePaginationParams (page limit : Option JsNum) : ValidationResult :=
  let errors :=
    (match page with
     | none => []
     | some p => if p.parseInt < 1 then ["页码必须是大于0的整数"] else []) ++
    (match limit with
     | none => []
     | some l => if l.parseInt < 1 || l.parseInt > 100 then
        ["每页数量必须是1-100之间的整数"] else [])
  ⟨errors.isEmpty, errors⟩

/-! ## Data model (user.model.js) -/

/-- A persisted row of the `users` table.  `deleted_at` is the paranoid
soft-delete marker; timestamps are abstract instants (`Nat`).  The free-form
`preferences`/`metadata` JSON blobs are omitted: no operation modelled here
reads them. -/
structure UserRow where
  id : Nat
  username : String
  email : String
  password_hash : String
  full_name : Option String := none
  avatar_url : Option String := none
  phone : Option String := none
  birth_date : Option String := none
  gender : Option String := none
  status : String := "active"
  email_verified : Bool := false
  email_verified_at : Option Nat := none
  last_login_at : Option Nat := none
  last_login_ip : Option String := none
  login_count : Nat := 0
  created_at : Nat := 0
  updated_at : Nat := 0
  deleted_at : Option Nat := none
deriving DecidableEq

/-- The persisted user collection. -/
abbrev Store := List UserRow

/-- The paranoid filter: default queries see only rows without the
soft-delete marker. -/
def isLive (u : UserRow) : Bool := u.deleted_at = none

/-- `getPublicInfo` (user.model.js): the public projection; it omits the
password hash, login bookkeeping, phone, birth date, gender and the JSON
blobs. -/
structure PublicInfo where
  id : Nat
  username : String
  email : String
  full_name : Option String
  avatar_url : Option String
  status : String
  email_verified : Bool
  created_at : Nat
  updated_at : Nat
deriving DecidableEq

/-- The public projection of a row. -/
def getPublicInfo (u : UserRow) : PublicInfo :=
  { id := u.id, username := u.username, email := u.email,
    full_name := u.full_name, avatar_url := u.avatar_url, status := u.status,
    email_verified := u.email_verified,
    created_at := u.created_at, updated_at := u.updated_at }

/-- `updateLastLogin` (user.model.js): stamps the clock, increments the
login counter, keeps the previous IP when the argument is falsy, and saves
(which refreshes `updated_at`). -/
def updateLastLogin (u : UserRow) (now : Nat) (ip : Option String) : UserRow :=
  { u with
    last_login_at := some now,
    login_count := u.login_count + 1,
    last_login_ip := if isFalsyStr ip then u.last_login_ip else ip,
    updated_at := now }

/-! ## Repository layer (UserRepository) -/

/-- `findById`: primary-key lookup under the paranoid filter. -/
def findById (st : Store) (id : Nat) : Option UserRow :=
  st.find? (fun u => isLive u && u.id = id)

/-- Primary-key lookup with `paranoid: false`, as `restore` issues it. -/
def findByIdUnparanoid (st : Store) (id : Nat) : Option UserRow :=
  st.find? (fun u => u.id = id)

/-- `findByUsername`. -/
def findByUsername (st : Store) (username : String) : Option UserRow :=
  st.find? (fun u => isLive u && u.username = username)

/-- `findByEmail`: the argument is lowercased before comparison. -/
def findByEmail (st : Store) (email : String) : Option UserRow :=
  st.find? (fun u => isLive u && u.email = jsToLower email)

/-- `findByUsernameOrEmail`: username match, or email match against the
lowercased identifier. -/
def findByUsernameOrEmail (st : Store) (identifier : String) : Option UserRow :=
  st.find? (fun u => isLive u && (u.username = identifier || u.email = jsToLower identifier))

/-- `isUsernameExists` with its optional excluded id (`if (excludeId)`:
the id rides in an `Op.ne` clause only when given). -/
def isUsernameExists (st : Store) (username : String) (excludeId : Option Nat) : Bool :=
  (st.find? (fun u => isLive u && u.username = username &&
    (match excludeId with | none => true | some eid => u.id ≠ eid))).isSome

/-- `isEmailExists`: like the username check, on the lowercased email. -/
def isEmailExists (st : Store) (email : String) (excludeId : Option Nat) : Bool :=
  (st.find? (fun u => isLive u && u.email = jsToLower email &&
    (match excludeId with | none => true | some eid => u.id ≠ eid))).isSome

/-- Insertion step of the default `ORDER BY created_at DESC`. -/
def insertByCreatedDesc (u : UserRow) : List UserRow → List UserRow
  | [] => [u]
  | v :: vs =>
    if v.created_at ≤ u.created_at then u :: v :: vs
    else v :: insertByCreatedDesc u vs

/-- The default ordering of `findAll`: newest first by creation time. -/
def sortByCreatedDesc : List UserRow → List UserRow
  | [] => []
  | u :: us => insertByCreatedDesc u (sortByCreatedDesc us)

/-- The pagination block `findAll` returns. -/
structure Pagination where
  total : Nat
  page : Int
  limit : Int
  totalPages : Int
deriving DecidableEq

/-- The row page plus pagination block `findAll` returns. -/
structure FindAllResult where
  users : List UserRow
  pagination : Pagination
deriving DecidableEq

/-- `findAll`: defaults `page = 1`, `limit = 10`; offset `(page-1)*limit`;
the store answers `count` over the filtered live rows and the slice
`OFFSET parseInt(offset) LIMIT parseInt(limit)` of the ordered rows;
`totalPages = Math.ceil(count / limit)` on the exact values. -/
def findAll (st : Store) (wherePred : UserRow → Bool) (pageArg limitArg : Option JsNum) : FindAllResult :=
  let page := pageArg.getD ⟨1, 0⟩
  let limit := limitArg.getD ⟨10, 0⟩
  let offset := JsNum.mul (JsNum.sub page ⟨1, 0⟩) limit
  let rows := sortByCreatedDesc (st.filter (fun u => isLive u && wherePred u))
  let count := rows.length
  { users := (rows.drop offset.parseInt.toNat).take limit.parseInt.toNat
    pagination :=
      { total := count
        page := page.parseInt
        limit := limit.parseInt
        totalPages := ceilQuot ((count : Int) * (10 : Int) ^ limit.shift) limit.mantissa } }

/-- Replace every row carrying the id of `u` by `u` (the ORM update and
save write back by primary key). -/
def storeReplace (st : Store) (u : UserRow) : Store :=
  st.map (fun v => if v.id = u.id then u else v)

/-- Apply an update payload to a row: attributes present in the payload are
written, the rest keep their values; the `beforeUpdate` hook then lowercases
a truthy email, and the ORM refreshes `updated_at`.  The plaintext
`password` key is not a model attribute and is ignored by the ORM. -/
def applyUpdateData (u : UserRow) (d : UpdateData) (now : Nat) : UserRow :=
  let u1 := { u with
    username := d.username.getD u.username,
    email := d.email.getD u.email,
    password_hash := d.password_hash.getD u.password_hash,
    full_name := if d.full_name.isSome then d.full_name else u.full_name,
    phone := if d.phone.isSome then d.phone else u.phone,
    birth_date := if d.birth_date.isSome then d.birth_date else u.birth_date,
    gender := if d.gender.isSome then d.gender else u.gender,
    status := d.status.getD u.status,
    avatar_url := if d.avatar_url.isSome then d.avatar_url else u.avatar_url,
    email_verified := d.email_verified.getD u.email_verified,
    email_verified_at := if d.email_verified_at.isSome then d.email_verified_at else u.email_verified_at,
    last_login_at := if d.last_login_at.isSome then d.last_login_at else u.last_login_at,
    last_login_ip := if d.last_login_ip.isSome then d.last_login_ip else u.last_login_ip,
    login_count := d.login_count.getD u.login_count,
    updated_at := now }
  if u1.email ≠ "" then { u1 with email := jsToLower u1.email } else u1

/-- `update` (repository): a paranoid update by id; zero affected rows
yields `null`, otherwise the refreshed row is fetched again. -/
def repoUpdate (st : Store) (id : Nat) (d : UpdateData) (now : Nat) : Option UserRow × Store :=
  match findById st id with
  | none => (none, st)
  | some u =>
    let u1 := applyUpdateData u d now
    let st1 := storeReplace st u1
    (findById st1 id, st1)

/-- `softDelete`: paranoid destroy; `false` when the id is not found live,
otherwise the marker is stamped. -/
def softDelete (st : Store) (id : Nat) (now : Nat) : Bool × Store :=
  match findById st id with
  | none => (false, st)
  | some u => (true, storeReplace st { u with deleted_at := some now })

/-- `hardDelete`: removes matching rows regardless of the marker. -/
def hardDelete (st : Store) (id : Nat) : Bool × Store :=
  let st1 := st.filter (fun u => u.id ≠ id)
  (decide (st1.length < st.length), st1)

/-- `restore`: finds the row bypassing the paranoid filter and clears the
marker. -/
def restore (st : Store) (id : Nat) : Option UserRow × Store :=
  match findByIdUnparanoid st id with
  | none => (none, st)
  | some u =>
    let u1 := { u with deleted_at := none }
    (some u1, storeReplace st u1)

/-- The field kept by `verificationRate`: the ORM layer returns a
two-decimal string when the store is nonempty and the bare number `0`
otherwise. -/
inductive RateValue
  | num (n : Nat)
  | str (s : String)
deriving DecidableEq

/-- Model of `Number.prototype.toFixed(2)` applied to the exact value
`a / b` (with `0 ≤ a`, `0 < b`): round half up to hundredths, then render
integer part, point, and exactly two decimal digits. -/
def toFixed2Frac (a b : Nat) : String :=
  let n := (200 * a + b) / (2 * b)
  ⟨natToDigitsAux (n / 100 + 1) (n / 100) ++ ['.', digitChar (n / 10), digitChar n]⟩

/-- The aggregate block `getStatistics` returns. -/
structure Statistics where
  total : Nat
  active : Nat
  verified : Nat
  todayRegistered : Nat
  verificationRate : RateValue
deriving DecidableEq

/-- `getStatistics`: live-row counts (total, active status, verified email,
created at or after the start of the current day, threaded in as
`todayStart`) and the verification rate `(verified / total * 100)` as a
`toFixed(2)` string for a nonempty store, the number `0` otherwise. -/
def getStatistics (st : Store) (todayStart : Nat) : Statistics :=
  let live := st.filter isLive
  let total := live.length
  let verified := (live.filter (fun u => u.email_verified)).length
  { total := total
    active := (live.filter (fun u => u.status = "active")).length
    verified := verified
    todayRegistered := (live.filter (fun u => todayStart ≤ u.created_at)).length
    verificationRate :=
      if total > 0 then .str (toFixed2Frac (verified * 100) total) else .num 0 }

/-! ## Service layer (UserService) -/

/-- Model of the external bcrypt digest: deterministic, tagged with the
scheme and cost (`$2b$<cost>$` prefix), and therefore never equal to the
plaintext; the comparison below succeeds exactly on the hashed password.
The service only ever hashes with cost factor 12. -/
def bcryptHash (saltRounds : Nat) (password : String) : String :=
  "$2b$" ++ natRepr saltRounds ++ "$" ++ password

/-- Model of `bcrypt.compare` against a digest produced at the one cost
this codebase uses. -/
def bcryptCompare (password hash : String) : Bool := hash = bcryptHash 12 password

/-- The uniform result shape of the single-user service methods. -/
structure UserResult where
  success : Bool
  message : String
  errors : List String := []
  data : Option PublicInfo := none
deriving DecidableEq

/-- The object `createUser` hands to the repository after hashing: the
input spread, `password_hash` added, email lowercased, and the plaintext
`password` key deleted. -/
structure PersistData where
  username : Option String
  email : Option String
  password : Option String
  password_hash : Option String
  full_name : Option String
  phone : Option String
  birth_date : Option String
  gender : Option String
  avatar_url : Option String
  status : Option String
deriving DecidableEq

/-- Build the persistence object of `createUser` step 5: spread the input,
set the hash, lowercase the email, delete the plaintext password key. -/
def userDataToCreate (d : CreateData) (passwordHash : String) : PersistData :=
  { username := d.username
    email := some (jsToLower (d.email.getD ""))
    password := none
    password_hash := some passwordHash
    full_name := d.full_name, phone := d.phone, birth_date := d.birth_date
    gender := d.gender, avatar_url := d.avatar_url, status := d.status }

/-- `create` (repository) on the prepared object: the ORM materialises a
row from the model attributes (the stray `password` key is not one), the
`beforeCreate` hook lowercases the email, column defaults fill the rest,
and the autoincrement id is one past the largest id ever used (modelled as
one past the largest id present). -/
def repoCreate (st : Store) (d : PersistData) (now : Nat) : UserRow × Store :=
  let id := (st.map (fun u => u.id)).foldr max 0 + 1
  let row : UserRow :=
    { id := id
      username := d.username.getD ""
      email := jsToLower (d.email.getD "")
      password_hash := d.password_hash.getD ""
      full_name := d.full_name, avatar_url := d.avatar_url, phone := d.phone
      birth_date := d.birth_date, gender := d.gender
      status := d.status.getD "active"
      created_at := now, updated_at := now }
  (row, st ++ [row])

/-- `createUser`: validation, then username uniqueness, then email
uniqueness, then hash at cost 12, strip the plaintext, persist, and answer
with the public projection. -/
def createUser (st : Store) (d : CreateData) (today : SimpleDate) (now : Nat) :
    UserResult × Store :=
  let validation := validateUserCreation today d
  if !validation.isValid then
    ({ success := false, message := "数据验证失败", errors := validation.errors }, st)
  else if isUsernameExists st (d.username.getD "") none then
    ({ success := false, message := "用户名已存在", errors := ["用户名已被使用"] }, st)
  else if isEmailExists st (d.email.getD "") none then
    ({ success := false, message := "邮箱已存在", errors := ["邮箱地址已被使用"] }, st)
  else
    let passwordHash := bcryptHash 12 (d.password.getD "")
    let created := repoCreate st (userDataToCreate d passwordHash) now
    ({ success := true, message := "用户创建成功", data := some (getPublicInfo created.1) },
     created.2)

/-- `getUserByUsername`: not-found failure, else the public projection
(`getUserById` differs only in its lookup key and private-view flag and is
not needed by any claim). -/
def getUserByUsername (st : Store) (username : String) : UserResult :=
  match findByUsername st username with
  | none => { success := false, message := "用户不存在" }
  | some u =>
    { success := true, message := "获取用户信息成功", data := some (getPublicInfo u) }

/-- The result shape of the list-returning service methods. -/
structure ListResult where
  success : Bool
  message : String
  errors : List String := []
  users : List PublicInfo := []
  pagination : Option Pagination := none
  keyword : Option String := none
deriving DecidableEq

/-- `getUserList`: pagination validation first, then the repository page
mapped to public projections (the status/search filters of the HTTP layer
are outside the claims and enter the repository as the trivial clause). -/
def getUserList (st : Store) (pageArg limitArg : Option JsNum) : ListResult :=
  let pv := validatePaginationParams pageArg limitArg
  if !pv.isValid then
    { success := false, message := "分页参数验证失败", errors := pv.errors }
  else
    let result := findAll st (fun _ => true) pageArg limitArg
    { success := true, message := "获取用户列表成功",
      users := result.users.map getPublicInfo, pagination := some result.pagination }

/-- Steps 5 and 6 of `updateUser`: a truthy password is re-hashed at cost
12 into `password_hash` with the plaintext key deleted, then a truthy email
is lowercased. -/
def preparedUpdate (d : UpdateData) : UpdateData :=
  let d1 :=
    if !isFalsyStr d.password then
      { d with password_hash := some (bcryptHash 12 (d.password.getD "")),
               password := none }
    else d
  if !isFalsyStr d1.email then
    { d1 with email := some (jsToLower (d1.email.getD "")) }
  else d1

/-- `updateUser`: validation, existence, uniqueness of a changed username
and of a changed email excluding self, re-hash of a truthy password with
the plaintext key dropped, email lowercasing, then the ORM update. -/
def updateUser (st : Store) (id : Nat) (d : UpdateData) (today : SimpleDate) (now : Nat) :
    UserResult × Store :=
  let validation := validateUserUpdate today d
  if !validation.isValid then
    ({ success := false, message := "数据验证失败", errors := validation.errors }, st)
  else
    match findById st id with
    | none => ({ success := false, message := "用户不存在", errors := ["指定的用户不存在"] }, st)
    | some existingUser =>
      if !isFalsyStr d.username && d.username.getD "" ≠ existingUser.username &&
         isUsernameExists st (d.username.getD "") (some id) then
        ({ success := false, message := "用户名已存在", errors := ["用户名已被其他用户使用"] }, st)
      else if !isFalsyStr d.email && jsToLower (d.email.getD "") ≠ existingUser.email &&
         isEmailExists st (d.email.getD "") (some id) then
        ({ success := false, message := "邮箱已存在", errors := ["邮箱地址已被其他用户使用"] }, st)
      else
        let updated := repoUpdate st id (preparedUpdate d) now
        match updated.1 with
        | some u =>
          ({ success := true, message := "用户信息更新成功", data := some (getPublicInfo u) },
           updated.2)
        | none =>
          ({ success := false, message := "更新用户信息失败",
             errors := ["读取更新后的用户失败"] }, updated.2)

/-- `deleteUser`: soft delete; not-found when the repository reports
nothing affected. -/
def deleteUser (st : Store) (id : Nat) (now : Nat) : UserResult × Store :=
  let deleted := softDelete st id now
  if deleted.1 then ({ success := true, message := "用户删除成功" }, deleted.2)
  else ({ success := false, message := "用户不存在", errors := ["指定的用户不存在"] }, deleted.2)

/-- `authenticateUser`: lookup by username or email, the status gate, the
bcrypt comparison, then the login bookkeeping and the public projection.
Unknown identifier and wrong password share one generic message. -/
def authenticateUser (st : Store) (identifier password : String) (loginIp : Option String)
    (now : Nat) : UserResult × Store :=
  match findByUsernameOrEmail st identifier with
  | none =>
    ({ success := false, message := "用户名或密码错误", errors := ["登录凭据无效"] }, st)
  | some user =>
    if user.status ≠ "active" then
      ({ success := false, message := "账户已被禁用", errors := ["账户状态异常，请联系管理员"] }, st)
    else if !bcryptCompare password user.password_hash then
      ({ success := false, message := "用户名或密码错误", errors := ["登录凭据无效"] }, st)
    else
      let u1 := updateLastLogin user now loginIp
      ({ success := true, message := "登录成功", data := some (getPublicInfo u1) },
       storeReplace st u1)

/-- `verifyEmail`: not-found failure, already-verified failure, else set
the flag and the timestamp through the ORM update. -/
def verifyEmail (st : Store) (id : Nat) (now : Nat) : UserResult × Store :=
  match findById st id with
  | none => ({ success := false, message := "用户不存在", errors := ["指定的用户不存在"] }, st)
  | some user =>
    if user.email_verified then
      ({ success := false, message := "邮箱已验证", errors := ["邮箱已经验证过了"] }, st)
    else
      let updated := repoUpdate st id
        { email_verified := some true, email_verified_at := some now } now
      match updated.1 with
      | some u =>
        ({ success := true, message := "邮箱验证成功", data := some (getPublicInfo u) },
         updated.2)
      | none =>
        ({ success := false, message := "邮箱验证失败",
           errors := ["读取更新后的用户失败"] }, updated.2)

/-- The `WHERE` clause of `searchUsers`: keyword substring over username,
full name, or email (a NULL full name matches nothing). -/
def searchPred (keyword : String) (u : UserRow) : Bool :=
  sqlLikeContains keyword u.username ||
  (match u.full_name with | some f => sqlLikeContains keyword f | none => false) ||
  sqlLikeContains keyword u.email

/-- `searchUsers`: defaults its page and limit and forwards them to
`findAll` with the keyword clause — with no pagination validation — then
maps to public projections and echoes the keyword. -/
def searchUsers (st : Store) (keyword : String) (pageArg limitArg : Option JsNum) : ListResult :=
  let page := pageArg.getD ⟨1, 0⟩
  let limit := limitArg.getD ⟨10, 0⟩
  let result := findAll st (searchPred keyword) (some page) (some limit)
  { success := true, message := "搜索用户成功",
    users := result.users.map getPublicInfo,
    pagination := some result.pagination,
    keyword := some keyword }

/-- `getUserStatistics`: passthrough of the repository aggregate. -/
def getUserStatistics (st : Store) (todayStart : Nat) : Bool × String × Statistics :=
  (true, "获取统计信息成功", getStatistics st todayStart)

/-! ## Sequences of service operations -/

/-- One store-mutating service call with its external inputs (the clock and
the client data); the read-only methods do not touch the store. -/
inductive SvcOp
  | create (d : CreateData) (today : SimpleDate) (now : Nat)
  | update (id : Nat) (d : UpdateData) (today : SimpleDate) (now : Nat)
  | delete (id : Nat) (now : Nat)
  | verify (id : Nat) (now : Nat)
  | auth (identifier password : String) (loginIp : Option String) (now : Nat)
deriving DecidableEq

/-- The store after one service call. -/
def applyOp (st : Store) : SvcOp → Store
  | .create d today now => (createUser st d today now).2
  | .update id d today now => (updateUser st id d today now).2
  | .delete id now => (deleteUser st id now).2
  | .verify id now => (verifyEmail st id now).2
  | .auth identifier password ip now => (authenticateUser st identifier password ip now).2

/-- The store after a sequence of service calls. -/
def runOps (st : Store) (ops : List SvcOp) : Store := ops.foldl applyOp st

/-- An operation whose update payload (if any) leaves the login
bookkeeping attributes unset. -/
def benignOp : SvcOp → Bool
  | .update _ d _ _ =>
    d.login_count = none && d.last_login_at = none && d.last_login_ip = none
  | _ => true

/-- Whether the operation is an `authenticateUser` call that succeeds on
the given store. -/
def isSuccessfulAuth (st : Store) : SvcOp → Bool
  | .auth identifier password ip now => (authenticateUser st identifier password ip now).1.success
  | _ => false

/-! ## Helper lemmas -/

theorem char_ofNat_toNat {n : Nat} (h : n < 55296) : (Char.ofNat n).toNat = n := by
  have hv : n.isValidChar := Or.inl h
  simp [Char.ofNat, hv]
  rfl

theorem char_toNat_le_of_le {c d : Char} (h : c ≤ d) : c.toNat ≤ d.toNat := by
  rw [Char.le_def, UInt32.le_def] at h
  exact h

theorem char_toNat_le_of_le' {c d : Char} (h : c.toNat ≤ d.toNat) : c ≤ d := by
  rw [Char.le_def, UInt32.le_def]
  exact h

theorem jsCharToLower_toNat_of_upper {c : Char} (h1 : 'A' ≤ c) (h2 : c ≤ 'Z') :
    (jsCharToLower c).toNat = c.toNat + 32 := by
  have h90 : c.toNat ≤ 90 := char_toNat_le_of_le h2
  unfold jsCharToLower
  rw [if_pos (by simp [h1, h2])]
  exact char_ofNat_toNat (by omega)

theorem jsCharToLower_idem (c : Char) : jsCharToLower (jsCharToLower c) = jsCharToLower c := by
  by_cases hc : 'A' ≤ c ∧ c ≤ 'Z'
  · have ha : ('A' : Char).toNat = 65 := rfl
    have hz : ('Z' : Char).toNat = 90 := rfl
    have h65 := char_toNat_le_of_le hc.1
    have hlow : (jsCharToLower c).toNat = c.toNat + 32 := jsCharToLower_toNat_of_upper hc.1 hc.2
    set c1 := jsCharToLower c with hc1
    have hnot : ¬('A' ≤ c1 ∧ c1 ≤ 'Z') := by
      rintro ⟨-, hle⟩
      have h2 := char_toNat_le_of_le hle
      omega
    unfold jsCharToLower
    exact if_neg (by simpa using hnot)
  · have h1 : jsCharToLower c = c := by
      unfold jsCharToLower
      exact if_neg (by simpa using hc)
    rw [h1, h1]

theorem jsToLower_idem (s : String) : jsToLower (jsToLower s) = jsToLower s := by
  unfold jsToLower
  congr 1
  show List.map jsCharToLower (List.map jsCharToLower s.data) = List.map jsCharToLower s.data
  rw [List.map_map]
  simp only [Function.comp_def, jsCharToLower_idem]

theorem digitChar_ne_dot (m : Nat) : digitChar m ≠ '.' := by
  intro h
  have hm : m % 10 < 10 := Nat.mod_lt _ (by omega)
  have := congrArg Char.toNat h
  rw [digitChar, char_ofNat_toNat (by omega)] at this
  have : ('.' : Char).toNat = 46 := rfl
  omega

theorem natToDigitsAux_length_pos (fuel n : Nat) : 1 ≤ (natToDigitsAux (fuel + 1) n).length := by
  unfold natToDigitsAux
  split
  · simp
  · simp

theorem natRepr_length_pos (n : Nat) : 1 ≤ (natRepr n).length :=
  natToDigitsAux_length_pos n n

theorem bcryptHash_ne_plaintext (cost : Nat) (pw : String) : bcryptHash cost pw ≠ pw := by
  intro h
  have hlen := congrArg String.length h
  simp only [bcryptHash, String.length_append] at hlen
  have h4 : ("$2b$" : String).length = 4 := rfl
  have h1 : ("$" : String).length = 1 := rfl
  have hd := natRepr_length_pos cost
  omega

theorem find?_eq_some_of_mem {p : UserRow → Bool} {l : List UserRow} {a : UserRow}
    (hall : ∀ x ∈ l, p x = true → x = a) (hmem : ∃ x ∈ l, p x = true) :
    l.find? p = some a := by
  induction l with
  | nil => rcases hmem with ⟨x, hx, _⟩; cases hx
  | cons y ys ih =>
    by_cases hy : p y = true
    · have hya : y = a := hall y (List.mem_cons_self y ys) hy
      rw [List.find?_cons_of_pos _ hy, hya]
    · rw [List.find?_cons_of_neg _ (by simpa using hy)]
      refine ih (fun x hx hpx => hall x (List.mem_cons_of_mem _ hx) hpx) ?_
      rcases hmem with ⟨x, hx, hpx⟩
      rcases List.mem_cons.mp hx with rfl | hx'
      · exact absurd hpx hy
      · exact ⟨x, hx', hpx⟩

/-- Stores whose rows carry pairwise distinct ids (every service operation
preserves this; the autoincrement id keeps it from the start). -/
abbrev nodupIds (st : Store) : Prop := st.Pairwise (fun a b => a.id ≠ b.id)

theorem nodupIds_eq {st : Store} (h : nodupIds st) {u v : UserRow}
    (hu : u ∈ st) (hv : v ∈ st) (hid : u.id = v.id) : u = v := by
  induction st with
  | nil => cases hu
  | cons x xs ih =>
    rcases List.pairwise_cons.mp h with ⟨hx, hxs⟩
    rcases List.mem_cons.mp hu with rfl | hu'
    · rcases List.mem_cons.mp hv with rfl | hv'
      · rfl
      · exact absurd hid (hx v hv')
    · rcases List.mem_cons.mp hv with rfl | hv'
      · exact absurd hid.symm (hx u hu')
      · exact ih hxs hu' hv'

theorem storeReplace_fun_id (w v : UserRow) : (if v.id = w.id then w else v).id = v.id := by
  split
  · next h => exact h.symm
  · rfl

theorem mem_storeReplace {st : Store} {w u' : UserRow} (h : u' ∈ storeReplace st w) :
    u' = w ∨ (u' ∈ st ∧ u'.id ≠ w.id) := by
  rcases List.mem_map.mp h with ⟨v, hv, hfv⟩
  by_cases hid : v.id = w.id
  · left
    rw [← hfv, if_pos hid]
  · right
    rw [← hfv, if_neg hid]
    exact ⟨hv, hid⟩

theorem mem_storeReplace_of_ne {st : Store} {w v : UserRow} (hv : v ∈ st) (h : v.id ≠ w.id) :
    v ∈ storeReplace st w := by
  refine List.mem_map.mpr ⟨v, hv, ?_⟩
  simp [if_neg h]

theorem mem_storeReplace_self {st : Store} {w v : UserRow} (hv : v ∈ st) (h : v.id = w.id) :
    w ∈ storeReplace st w := by
  refine List.mem_map.mpr ⟨v, hv, ?_⟩
  simp [h]

theorem nodupIds_storeReplace {st : Store} (h : nodupIds st) (w : UserRow) :
    nodupIds (storeReplace st w) := by
  refine List.pairwise_map.mpr ?_
  exact h.imp (fun hab => by rwa [storeReplace_fun_id, storeReplace_fun_id])

theorem mem_id_lt_nextId {st : Store} {u : UserRow} (hu : u ∈ st) :
    u.id < (st.map (fun v => v.id)).foldr max 0 + 1 := by
  induction st with
  | nil => cases hu
  | cons x xs ih =>
    rcases List.mem_cons.mp hu with rfl | hu'
    · simp only [List.map_cons, List.foldr_cons]
      omega
    · have := ih hu'
      simp only [List.map_cons, List.foldr_cons]
      omega

theorem length_insertByCreatedDesc (u : UserRow) (l : List UserRow) :
    (insertByCreatedDesc u l).length = l.length + 1 := by
  induction l with
  | nil => rfl
  | cons v vs ih =>
    unfold insertByCreatedDesc
    split
    · rfl
    · simp only [List.length_cons, ih]

theorem length_sortByCreatedDesc (l : List UserRow) :
    (sortByCreatedDesc l).length = l.length := by
  induction l with
  | nil => rfl
  | cons u us ih =>
    unfold sortByCreatedDesc
    rw [length_insertByCreatedDesc, ih]
    rfl

theorem mem_insertByCreatedDesc {u x : UserRow} {l : List UserRow}
    (h : x ∈ insertByCreatedDesc u l) : x = u ∨ x ∈ l := by
  induction l with
  | nil => simpa [insertByCreatedDesc] using h
  | cons v vs ih =>
    unfold insertByCreatedDesc at h
    split at h
    · rcases List.mem_cons.mp h with rfl | h'
      · exact Or.inl rfl
      · exact Or.inr h'
    · rcases List.mem_cons.mp h with rfl | h'
      · exact Or.inr (List.mem_cons_self _ _)
      · rcases ih h' with hxu | hxx
        · exact Or.inl hxu
        · exact Or.inr (List.mem_cons_of_mem _ hxx)

theorem pairwise_insertByCreatedDesc {u : UserRow} {l : List UserRow}
    (h : l.Pairwise (fun a b => b.created_at ≤ a.created_at)) :
    (insertByCreatedDesc u l).Pairwise (fun a b => b.created_at ≤ a.created_at) := by
  induction l with
  | nil => simp [insertByCreatedDesc]
  | cons v vs ih =>
    rcases List.pairwise_cons.mp h with ⟨hv, hvs⟩
    unfold insertByCreatedDesc
    split
    · next hle =>
      refine List.pairwise_cons.mpr ⟨?_, h⟩
      intro x hx
      rcases List.mem_cons.mp hx with rfl | hx'
      · exact hle
      · exact le_trans (hv x hx') hle
    · next hgt =>
      have hle' : u.created_at ≤ v.created_at := le_of_not_le hgt
      refine List.pairwise_cons.mpr ⟨?_, ih hvs⟩
      intro x hx
      rcases mem_insertByCreatedDesc hx with rfl | hx'
      · exact hle'
      · exact hv x hx'

theorem pairwise_sortByCreatedDesc (l : List UserRow) :
    (sortByCreatedDesc l).Pairwise (fun a b => b.created_at ≤ a.created_at) := by
  induction l with
  | nil => simp [sortByCreatedDesc]
  | cons u us ih =>
    unfold sortByCreatedDesc
    exact pairwise_insertByCreatedDesc ih

theorem ceilQuot_natCast (c l : Nat) (hl : 1 ≤ l) :
    ceilQuot (c : Int) (l : Int) = (((c + l - 1) / l : Nat) : Int) := by
  rcases Nat.exists_eq_add_of_le hl with ⟨k, rfl⟩
  cases c with
  | zero =>
    show -((-(0 : Int)) / _) = _
    rw [neg_zero, Int.zero_ediv, neg_zero]
    rw [Nat.div_eq_of_lt (by omega)]
    rfl
  | succ m =>
    show -((-(((m + 1 : Nat)) : Int)) / ((1 + k : Nat) : Int)) = _
    have h1 : (-(((m + 1 : Nat)) : Int)) = Int.negSucc m := rfl
    have h2 : ((1 + k : Nat) : Int) = Int.ofNat (k + 1) := by rw [Nat.add_comm]; rfl
    rw [h1, h2]
    have h3 : Int.negSucc m / Int.ofNat (k + 1) = Int.negSucc (m / (k + 1)) := rfl
    rw [h3]
    have h4 : -Int.negSucc (m / (k + 1)) = Int.ofNat (m / (k + 1) + 1) := rfl
    rw [h4]
    have h5 : (m + 1 + (1 + k) - 1) = m + (k + 1) := by omega
    rw [h5]
    have h6 : (m + (k + 1)) / (1 + k) = m / (k + 1) + 1 := by
      rw [Nat.add_comm 1 k]
      exact Nat.add_div_right m (by omega)
    rw [h6]
    rfl

theorem parseInt_ofNat (n : Nat) : JsNum.parseInt ⟨(n : Int), 0⟩ = (n : Int) := by
  simp [JsNum.parseInt, Int.tdiv_one]

theorem parseInt_int (m : Int) : JsNum.parseInt ⟨m, 0⟩ = m := by
  simp [JsNum.parseInt, Int.tdiv_one]

/-- The number of characters after the last dot of a string (its decimal
places, when the string renders a decimal number). -/
def fracLen (s : String) : Nat :=
  ((s.data.reverse).takeWhile (fun c => c ≠ '.')).length

theorem takeWhile_reverse_append_two (A : List Char) (c1 c2 : Char)
    (h1 : c1 ≠ '.') (h2 : c2 ≠ '.') :
    (((A ++ ['.', c1, c2]).reverse).takeWhile (fun c => c ≠ '.')).length = 2 := by
  rw [List.reverse_append]
  show ((c2 :: c1 :: '.' :: A.reverse).takeWhile (fun c => c ≠ '.')).length = 2
  rw [List.takeWhile_cons_of_pos (by simpa using h2),
      List.takeWhile_cons_of_pos (by simpa using h1),
      List.takeWhile_cons_of_neg (by simp)]
  rfl

theorem fracLen_toFixed2Frac (a b : Nat) : fracLen (toFixed2Frac a b) = 2 :=
  takeWhile_reverse_append_two _ _ _ (digitChar_ne_dot _) (digitChar_ne_dot _)

theorem toFixed2Frac_contains_dot (a b : Nat) : '.' ∈ (toFixed2Frac a b).data := by
  unfold toFixed2Frac
  show '.' ∈ _ ++ _
  exact List.mem_append.mpr (Or.inr (by simp))

/-! ## Claim theorems -/

/-- C1: for every valid creation payload (validation passes, username and
email free), `createUser` persists exactly one new row whose email is the
lowercased input email, whose password field holds the bcrypt digest at
cost 12 and never the plaintext, and the plaintext password key is removed
from the persistence object before the row is created. -/
theorem createUser_stores_lowercase_hashed (st : Store) (d : CreateData) (today : SimpleDate)
    (now : Nat) (pw e : String)
    (hv : (validateUserCreation today d).isValid = true)
    (hu : isUsernameExists st (d.username.getD "") none = false)
    (he : isEmailExists st (d.email.getD "") none = false)
    (hpw : d.password = some pw) (hem : d.email = some e) :
    (createUser st d today now).1.success = true ∧
    (createUser st d today now).2 =
      st ++ [(repoCreate st (userDataToCreate d (bcryptHash 12 pw)) now).1] ∧
    (repoCreate st (userDataToCreate d (bcryptHash 12 pw)) now).1.email = jsToLower e ∧
    (repoCreate st (userDataToCreate d (bcryptHash 12 pw)) now).1.password_hash =
      bcryptHash 12 pw ∧
    (repoCreate st (userDataToCreate d (bcryptHash 12 pw)) now).1.password_hash ≠ pw ∧
    (userDataToCreate d (bcryptHash 12 pw)).password = none := by
  have hemail : (repoCreate st (userDataToCreate d (bcryptHash 12 pw)) now).1.email =
      jsToLower e := by
    show jsToLower ((userDataToCreate d (bcryptHash 12 pw)).email.getD "") = jsToLower e
    unfold userDataToCreate
    show jsToLower ((some (jsToLower (d.email.getD ""))).getD "") = jsToLower e
    rw [hem]
    show jsToLower (jsToLower e) = jsToLower e
    exact jsToLower_idem e
  have hhash : (repoCreate st (userDataToCreate d (bcryptHash 12 pw)) now).1.password_hash =
      bcryptHash 12 pw := rfl
  refine ⟨?_, ?_, hemail, hhash, ?_, rfl⟩
  · unfold createUser
    simp [hv, hu, he]
  · unfold createUser
    simp only [hv, hu, he, Bool.not_true, Bool.false_eq_true, if_false]
    rw [hpw]
    rfl
  · rw [hhash]
    exact bcryptHash_ne_plaintext 12 pw

/-- Concrete instance of C1: a fresh store, a valid payload with a
mixed-case email. -/
def c1Payload : CreateData :=
  { username := some "alice", email := some "Alice@Example.com",
    password := some "Secret1!" }

/-- C1 witness: the theorem applied at a concrete valid payload on the
empty store, every hypothesis discharged by evaluation. -/
theorem createUser_stores_lowercase_hashed_witness :
    (createUser [] c1Payload ⟨2026, 10, 11⟩ 5).1.success = true ∧
    (createUser [] c1Payload ⟨2026, 10, 11⟩ 5).2 =
      [] ++ [(repoCreate [] (userDataToCreate c1Payload (bcryptHash 12 "Secret1!")) 5).1] ∧
    (repoCreate [] (userDataToCreate c1Payload (bcryptHash 12 "Secret1!")) 5).1.email =
      jsToLower "Alice@Example.com" ∧
    (repoCreate [] (userDataToCreate c1Payload (bcryptHash 12 "Secret1!")) 5).1.password_hash =
      bcryptHash 12 "Secret1!" ∧
    (repoCreate [] (userDataToCreate c1Payload (bcryptHash 12 "Secret1!")) 5).1.password_hash ≠
      "Secret1!" ∧
    (userDataToCreate c1Payload (bcryptHash 12 "Secret1!")).password = none :=
  createUser_stores_lowercase_hashed [] c1Payload ⟨2026, 10, 11⟩ 5 "Secret1!"
    "Alice@Example.com" (by decide) (by decide) (by decide) rfl rfl

/-- C2: `authenticateUser` answers with the identical generic failure
result — message `用户名或密码错误` — both when no user matches the
identifier and when an active user matches but the password fails the hash
comparison; in both cases the store is untouched. -/
theorem authenticateUser_generic_failure (st : Store) (identifier password : String)
    (loginIp : Option String) (now : Nat) :
    (findByUsernameOrEmail st identifier = none →
      (authenticateUser st identifier password loginIp now).1 =
        { success := false, message := "用户名或密码错误", errors := ["登录凭据无效"] } ∧
      (authenticateUser st identifier password loginIp now).2 = st) ∧
    (∀ u, findByUsernameOrEmail st identifier = some u → u.status = "active" →
      bcryptCompare password u.password_hash = false →
      (authenticateUser st identifier password loginIp now).1 =
        { success := false, message := "用户名或密码错误", errors := ["登录凭据无效"] } ∧
      (authenticateUser st identifier password loginIp now).2 = st) := by
  constructor
  · intro hnone
    unfold authenticateUser
    rw [hnone]
    exact ⟨rfl, rfl⟩
  · intro u hu hactive hpw
    unfold authenticateUser
    rw [hu]
    simp [hactive, hpw]

/-- C3: `createUser` runs its three checks in the fixed order validation,
username uniqueness, email uniqueness; each failing check answers
`success = false` with its own message and leaves the store alone, the
three messages are pairwise distinct, and only when all three pass is the
password hashed at bcrypt cost 12, the plaintext key dropped, the row
appended and its public projection returned. -/
theorem createUser_check_order (st : Store) (d : CreateData) (today : SimpleDate) (now : Nat) :
    ((createUser st d today now).1.message =
      (if !(validateUserCreation today d).isValid then "数据验证失败"
       else if isUsernameExists st (d.username.getD "") none then "用户名已存在"
       else if isEmailExists st (d.email.getD "") none then "邮箱已存在"
       else "用户创建成功")) ∧
    ((createUser st d today now).1.success =
      ((validateUserCreation today d).isValid &&
       !isUsernameExists st (d.username.getD "") none &&
       !isEmailExists st (d.email.getD "") none)) ∧
    ((createUser st d today now).2 =
      (if (validateUserCreation today d).isValid &&
          !isUsernameExists st (d.username.getD "") none &&
          !isEmailExists st (d.email.getD "") none then
        st ++ [(repoCreate st (userDataToCreate d (bcryptHash 12 (d.password.getD ""))) now).1]
      else st)) ∧
    ((createUser st d today now).1.data =
      (if (validateUserCreation today d).isValid &&
          !isUsernameExists st (d.username.getD "") none &&
          !isEmailExists st (d.email.getD "") none then
        some (getPublicInfo
          (repoCreate st (userDataToCreate d (bcryptHash 12 (d.password.getD ""))) now).1)
      else none)) ∧
    (userDataToCreate d (bcryptHash 12 (d.password.getD ""))).password = none ∧
    (("数据验证失败" : String) ≠ "用户名已存在" ∧
     ("数据验证失败" : String) ≠ "邮箱已存在" ∧
     ("用户名已存在" : String) ≠ "邮箱已存在") := by
  refine ⟨?_, ?_, ?_, ?_, rfl, by decide⟩ <;>
  · unfold createUser
    cases hv : (validateUserCreation today d).isValid <;>
      cases hu : isUsernameExists st (d.username.getD "") none <;>
        cases he : isEmailExists st (d.email.getD "") none <;>
          simp [hv, hu, he] <;> rfl

/-- C5 (amended): after a successful `softDelete id`, `findById id` answers
not-found and a second `softDelete id` reports not-found without changing
the store; a subsequent `restore id` returns the record with the soft-delete
marker cleared and every other field — in particular its pre-deletion
status — intact, and `findById id` finds it again. -/
theorem softDelete_restore_roundtrip (st : Store) (id now : Nat) (u : UserRow)
    (h : findById st id = some u) :
    (softDelete st id now).1 = true ∧
    findById (softDelete st id now).2 id = none ∧
    (softDelete (softDelete st id now).2 id now).1 = false ∧
    (softDelete (softDelete st id now).2 id now).2 = (softDelete st id now).2 ∧
    (restore (softDelete st id now).2 id).1 = some { u with deleted_at := none } ∧
    findById (restore (softDelete st id now).2 id).2 id =
      some { u with deleted_at := none } ∧
    ({ u with deleted_at := none } : UserRow).status = u.status := by
  have hp := List.find?_some h
  have hmem := List.mem_of_find?_eq_some h
  rw [Bool.and_eq_true, decide_eq_true_eq] at hp
  have hlive : isLive u = true := hp.1
  have hid : u.id = id := hp.2
  have hsd : softDelete st id now = (true, storeReplace st { u with deleted_at := some now }) := by
    unfold softDelete
    rw [h]
  have hduid : ({ u with deleted_at := some now } : UserRow).id = id := hid
  have hA : findById (storeReplace st { u with deleted_at := some now }) id = none := by
    apply List.find?_eq_none.mpr
    intro x hx
    rcases mem_storeReplace hx with rfl | ⟨hxst, hxid⟩
    · simp [isLive]
    · simp only [Bool.and_eq_true, decide_eq_true_eq]
      rintro ⟨-, hxeq⟩
      exact hxid (hxeq.trans hduid.symm)
  have hdumem : ({ u with deleted_at := some now } : UserRow) ∈
      storeReplace st { u with deleted_at := some now } :=
    mem_storeReplace_self hmem rfl
  have hC : findByIdUnparanoid (storeReplace st { u with deleted_at := some now }) id =
      some { u with deleted_at := some now } := by
    apply find?_eq_some_of_mem
    · intro x hx hxid
      rw [decide_eq_true_eq] at hxid
      rcases mem_storeReplace hx with rfl | ⟨-, hxne⟩
      · rfl
      · exact absurd (hxid.trans hduid.symm) hxne
    · exact ⟨_, hdumem, by simpa using hid⟩
  have hrest : restore (storeReplace st { u with deleted_at := some now }) id =
      (some { u with deleted_at := none },
       storeReplace (storeReplace st { u with deleted_at := some now })
         { u with deleted_at := none }) := by
    unfold restore
    rw [hC]
  have hD : findById (storeReplace (storeReplace st { u with deleted_at := some now })
      { u with deleted_at := none }) id = some { u with deleted_at := none } := by
    apply find?_eq_some_of_mem
    · intro x hx hxp
      rw [Bool.and_eq_true, decide_eq_true_eq] at hxp
      rcases mem_storeReplace hx with rfl | ⟨-, hxne⟩
      · rfl
      · exact absurd (hxp.2.trans hid.symm) hxne
    · exact ⟨_, mem_storeReplace_self hdumem rfl, by simp [isLive, hid]⟩
  rw [hsd]
  refine ⟨rfl, hA, ?_, ?_, ?_, ?_, rfl⟩
  · unfold softDelete
    rw [hA]
  · unfold softDelete
    rw [hA]
  · rw [hrest]
  · rw [hrest]
    exact hD

/-- Concrete store for the C5 theorems: one live suspended user. -/
def c5Suspended : UserRow :=
  { id := 1, username := "bob", email := "bob@x.co", password_hash := "h",
    status := "suspended", created_at := 10 }

/-- C5 witness: the round trip run on a concrete one-row store, the lookup
hypothesis discharged by evaluation. -/
theorem softDelete_restore_roundtrip_witness :
    (softDelete [c5Suspended] 1 30).1 = true ∧
    findById (softDelete [c5Suspended] 1 30).2 1 = none ∧
    (softDelete (softDelete [c5Suspended] 1 30).2 1 30).1 = false ∧
    (softDelete (softDelete [c5Suspended] 1 30).2 1 30).2 = (softDelete [c5Suspended] 1 30).2 ∧
    (restore (softDelete [c5Suspended] 1 30).2 1).1 =
      some { c5Suspended with deleted_at := none } ∧
    findById (restore (softDelete [c5Suspended] 1 30).2 1).2 1 =
      some { c5Suspended with deleted_at := none } ∧
    ({ c5Suspended with deleted_at := none } : UserRow).status = c5Suspended.status :=
  softDelete_restore_roundtrip [c5Suspended] 1 30 c5Suspended (by decide)

/-- C5 counterexample: as frozen, the claim says the record found after
`softDelete` then `restore` has status `active`; on a store whose one row
is suspended, the restored record keeps status `suspended`. -/
theorem softDelete_restore_counterexample :
    (findById (restore (softDelete [c5Suspended] 1 30).2 1).2 1).map
      (fun u => u.status) = some "suspended" ∧
    ("suspended" : String) ≠ "active" := by
  constructor
  · decide
  · decide

/-- C6: for integer `page ≥ 1` and `limit ≥ 1`, `findAll` returns at most
`limit` rows; the pagination echoes the page and limit, counts the matching
live rows in `total`, and computes `totalPages = ⌈total / limit⌉`; the page
is ordered newest-first by creation time. -/
theorem findAll_pagination (st : Store) (wherePred : UserRow → Bool) (p l : Nat)
    (hp : 1 ≤ p) (hl : 1 ≤ l) :
    (findAll st wherePred (some ⟨(p : Int), 0⟩) (some ⟨(l : Int), 0⟩)).users.length ≤ l ∧
    (findAll st wherePred (some ⟨(p : Int), 0⟩) (some ⟨(l : Int), 0⟩)).pagination.page =
      (p : Int) ∧
    (findAll st wherePred (some ⟨(p : Int), 0⟩) (some ⟨(l : Int), 0⟩)).pagination.limit =
      (l : Int) ∧
    (findAll st wherePred (some ⟨(p : Int), 0⟩) (some ⟨(l : Int), 0⟩)).pagination.total =
      (st.filter (fun u => isLive u && wherePred u)).length ∧
    (findAll st wherePred (some ⟨(p : Int), 0⟩) (some ⟨(l : Int), 0⟩)).pagination.totalPages =
      ((((st.filter (fun u => isLive u && wherePred u)).length + l - 1) / l : Nat) : Int) ∧
    (findAll st wherePred (some ⟨(p : Int), 0⟩) (some ⟨(l : Int), 0⟩)).users.Pairwise
      (fun a b => b.created_at ≤ a.created_at) := by
  refine ⟨?_, ?_, ?_, ?_, ?_, ?_⟩
  · simp only [findAll, Option.getD_some]
    rw [parseInt_ofNat, Int.toNat_natCast, List.length_take]
    exact min_le_left _ _
  · simp only [findAll, Option.getD_some]
    exact parseInt_ofNat p
  · simp only [findAll, Option.getD_some]
    exact parseInt_ofNat l
  · simp only [findAll, Option.getD_some]
    exact length_sortByCreatedDesc _
  · simp only [findAll, Option.getD_some]
    rw [pow_zero, mul_one, ceilQuot_natCast _ _ hl, length_sortByCreatedDesc]
  · simp only [findAll, Option.getD_some]
    exact List.Pairwise.sublist
      ((List.take_sublist _ _).trans (List.drop_sublist _ _))
      (pairwise_sortByCreatedDesc _)

/-- Concrete five-row store for the C6 witness. -/
def c6Store : Store :=
  [{ id := 1, username := "a", email := "a@x.co", password_hash := "h", created_at := 10 },
   { id := 2, username := "b", email := "b@x.co", password_hash := "h", created_at := 20 },
   { id := 3, username := "c", email := "c@x.co", password_hash := "h", created_at := 30 },
   { id := 4, username := "d", email := "d@x.co", password_hash := "h", created_at := 40 },
   { id := 5, username := "e", email := "e@x.co", password_hash := "h", created_at := 50 }]

/-- C6 witness: page 1, limit 3 over five seeded rows returns exactly 3
rows and `totalPages = 2`, with the theorem instantiated there. -/
theorem findAll_pagination_witness :
    (findAll c6Store (fun _ => true) (some ⟨((1 : Nat) : Int), 0⟩)
      (some ⟨((3 : Nat) : Int), 0⟩)).users.length = 3 ∧
    (findAll c6Store (fun _ => true) (some ⟨((1 : Nat) : Int), 0⟩)
      (some ⟨((3 : Nat) : Int), 0⟩)).pagination.totalPages = 2 ∧
    (findAll c6Store (fun _ => true) (some ⟨((1 : Nat) : Int), 0⟩)
      (some ⟨((3 : Nat) : Int), 0⟩)).pagination.total = 5 ∧
    ((findAll c6Store (fun _ => true) (some ⟨((1 : Nat) : Int), 0⟩)
      (some ⟨((3 : Nat) : Int), 0⟩)).users.length ≤ 3 ∧
     (findAll c6Store (fun _ => true) (some ⟨((1 : Nat) : Int), 0⟩)
      (some ⟨((3 : Nat) : Int), 0⟩)).pagination.page = ((1 : Nat) : Int) ∧
     (findAll c6Store (fun _ => true) (some ⟨((1 : Nat) : Int), 0⟩)
      (some ⟨((3 : Nat) : Int), 0⟩)).pagination.limit = ((3 : Nat) : Int) ∧
     (findAll c6Store (fun _ => true) (some ⟨((1 : Nat) : Int), 0⟩)
      (some ⟨((3 : Nat) : Int), 0⟩)).pagination.total =
       (c6Store.filter (fun u => isLive u && (fun _ => true) u)).length ∧
     (findAll c6Store (fun _ => true) (some ⟨((1 : Nat) : Int), 0⟩)
      (some ⟨((3 : Nat) : Int), 0⟩)).pagination.totalPages =
       ((((c6Store.filter (fun u => isLive u && (fun _ => true) u)).length + 3 - 1) / 3 : Nat) : Int) ∧
     (findAll c6Store (fun _ => true) (some ⟨((1 : Nat) : Int), 0⟩)
      (some ⟨((3 : Nat) : Int), 0⟩)).users.Pairwise
       (fun a b => b.created_at ≤ a.created_at)) :=
  ⟨by decide, by decide, by decide,
   findAll_pagination c6Store (fun _ => true) 1 3 (by decide) (by decide)⟩

/-- C7 (amended): `validatePaginationParams` accepts exactly when the
`parseInt` truncation of a present `page` is at least 1 and the truncation
of a present `limit` lies in `[1, 100]`; integer inputs therefore behave as
the claim says, but a non-integer input whose truncation is in range is
also accepted.  Every rejection carries an error message. -/
theorem validatePaginationParams_spec (page limit : Option JsNum) :
    ((validatePaginationParams page limit).isValid = true ↔
      ((∀ p ∈ page, 1 ≤ p.parseInt) ∧ (∀ l ∈ limit, 1 ≤ l.parseInt ∧ l.parseInt ≤ 100))) ∧
    ((validatePaginationParams page limit).isValid = false →
      (validatePaginationParams page limit).errors ≠ []) := by
  rcases page with _ | p <;> rcases limit with _ | l
  · constructor
    · simp [validatePaginationParams]
    · intro hfalse
      simp [validatePaginationParams] at hfalse
  · constructor
    · simp only [validatePaginationParams, List.nil_append]
      split_ifs with h <;> simp_all <;> omega
    · intro hfalse
      simp only [validatePaginationParams, List.nil_append] at hfalse ⊢
      split_ifs at hfalse ⊢ <;> simp_all
  · constructor
    · simp only [validatePaginationParams, List.append_nil]
      split_ifs with h <;> simp_all <;> omega
    · intro hfalse
      simp only [validatePaginationParams, List.append_nil] at hfalse ⊢
      split_ifs at hfalse ⊢ <;> simp_all
  · constructor
    · simp only [validatePaginationParams]
      split_ifs with h1 h2 <;> simp_all <;> omega
    · intro hfalse
      simp only [validatePaginationParams] at hfalse ⊢
      split_ifs at hfalse ⊢ <;> simp_all

/-- C7 counterexample: the claim says every non-integer value is rejected;
`page = 1.5` (mantissa 15, one decimal place — not an integer, its mantissa
is not a multiple of 10) parses to 1 and is accepted. -/
theorem validatePaginationParams_counterexample :
    (validatePaginationParams (some ⟨15, 1⟩) none).isValid = true ∧
    JsNum.parseInt ⟨15, 1⟩ = 1 ∧
    (15 : Int) % (10 : Int) ^ (1 : Nat) ≠ 0 := by
  refine ⟨by decide, by decide, by decide⟩

/-- C8: `getStatistics` returns the live-row aggregate counts; when the
total is zero every field is the number zero (the rate included); when the
total is positive the rate is the value `verified / total * 100` rendered
by `toFixed(2)` — a string containing a dot with exactly two characters
after it. -/
theorem getStatistics_spec (st : Store) (todayStart : Nat) :
    (getStatistics st todayStart).total = (st.filter isLive).length ∧
    (getStatistics st todayStart).active =
      ((st.filter isLive).filter (fun u => u.status = "active")).length ∧
    (getStatistics st todayStart).verified =
      ((st.filter isLive).filter (fun u => u.email_verified)).length ∧
    (getStatistics st todayStart).todayRegistered =
      ((st.filter isLive).filter (fun u => todayStart ≤ u.created_at)).length ∧
    ((st.filter isLive).length = 0 →
      getStatistics st todayStart = ⟨0, 0, 0, 0, .num 0⟩) ∧
    (0 < (st.filter isLive).length →
      (getStatistics st todayStart).verificationRate =
        .str (toFixed2Frac
          (((st.filter isLive).filter (fun u => u.email_verified)).length * 100)
          (st.filter isLive).length) ∧
      fracLen (toFixed2Frac
          (((st.filter isLive).filter (fun u => u.email_verified)).length * 100)
          (st.filter isLive).length) = 2 ∧
      '.' ∈ (toFixed2Frac
          (((st.filter isLive).filter (fun u => u.email_verified)).length * 100)
          (st.filter isLive).length).data) := by
  refine ⟨rfl, rfl, rfl, rfl, ?_, ?_⟩
  · intro h0
    rw [List.length_eq_zero] at h0
    simp [getStatistics, h0]
  · intro hpos
    refine ⟨?_, fracLen_toFixed2Frac _ _, toFixed2Frac_contains_dot _ _⟩
    simp only [getStatistics]
    rw [if_pos hpos]

/-- C9 (amended): full-name validation accepts absent and empty values, and
otherwise accepts exactly the strings of 2 to 100 characters drawn from the
CJK range, Latin letters and regex whitespace; in particular a single
letter — length 1, within the claimed character set and under the length
cap — is rejected, with an error message accompanying every rejection. -/
theorem validateFullName_spec (name : Option String) :
    ((validateFullName name).isValid = true ↔
      (isFalsyStr name = true ∨
        (2 ≤ (name.getD "").length ∧ (name.getD "").length ≤ 100 ∧
         (name.getD "").data.all fullNameChar = true))) ∧
    ((validateFullName name).isValid = false → (validateFullName name).errors ≠ []) := by
  by_cases hf : isFalsyStr name = true
  · constructor
    · simp [validateFullName, hf]
    · intro hfalse
      simp [validateFullName, hf] at hfalse
  · have hf' : isFalsyStr name = false := by
      cases hb : isFalsyStr name
      · rfl
      · exact absurd hb hf
    have hne : (name.getD "").data ≠ [] := by
      rcases name with _ | s
      · simp [isFalsyStr] at hf'
      · simp only [isFalsyStr, decide_eq_false_iff_not] at hf'
        intro hnil
        exact hf' (String.ext (by simpa using hnil))
    have hlen : 0 < (name.getD "").length := by
      show 0 < (name.getD "").data.length
      exact List.length_pos.mpr hne
    constructor
    · simp only [validateFullName, hf']
      split_ifs with h1 h2 h3 <;> simp_all <;> omega
    · intro hfalse
      simp only [validateFullName, hf'] at hfalse ⊢
      split_ifs at hfalse ⊢ <;> simp_all

/-- C9 counterexample: the single Latin letter `A` — length 1 ≤ 100,
characters inside the claimed set — is rejected by the validator. -/
theorem validateFullName_counterexample :
    (validateFullName (some "A")).isValid = false ∧
    ("A" : String).length ≤ 100 ∧
    ("A" : String).data.all fullNameChar = true := by
  refine ⟨by decide, by decide, by decide⟩

/-- C10: `searchUsers` performs no pagination validation: any page and
limit — including a limit beyond 100 — are forwarded unchanged to the
repository `findAll`, the call always succeeds with its own message, and it
never produces the pagination-validation failure that `getUserList` answers
for the same inputs. -/
theorem searchUsers_skips_pagination_validation (st : Store) (kw : String) (pg lm : JsNum) :
    searchUsers st kw (some pg) (some lm) =
      { success := true, message := "搜索用户成功",
        users := (findAll st (searchPred kw) (some pg) (some lm)).users.map getPublicInfo,
        pagination := some (findAll st (searchPred kw) (some pg) (some lm)).pagination,
        keyword := some kw } ∧
    (searchUsers st kw (some pg) (some lm)).message ≠ "分页参数验证失败" ∧
    ((getUserList st (some pg) (some lm)).message =
      if (validatePaginationParams (some pg) (some lm)).isValid then "获取用户列表成功"
      else "分页参数验证失败") ∧
    ((getUserList st (some pg) (some lm)).success =
      (validatePaginationParams (some pg) (some lm)).isValid) ∧
    (getUserList st (some ⟨1, 0⟩) (some ⟨101, 0⟩)).success = false ∧
    (getUserList st (some ⟨1, 0⟩) (some ⟨101, 0⟩)).message = "分页参数验证失败" ∧
    (searchUsers st kw (some ⟨1, 0⟩) (some ⟨101, 0⟩)).success = true := by
  have h101 : (validatePaginationParams (some ⟨1, 0⟩) (some ⟨101, 0⟩)).isValid = false := by
    decide
  refine ⟨rfl, by show ("搜索用户成功" : String) ≠ "分页参数验证失败"; decide, ?_, ?_, ?_, ?_, rfl⟩
  · cases hb : (validatePaginationParams (some pg) (some lm)).isValid <;>
      simp [getUserList, hb]
  · cases hb : (validatePaginationParams (some pg) (some lm)).isValid <;>
      simp [getUserList, hb]
  · simp [getUserList, h101]
  · simp [getUserList, h101]

/-! ## Login-bookkeeping invariant machinery (claim C4) -/

/-- What one benign service step guarantees: ids stay duplicate-free, a row
matched by id never loses login count and only a successful authentication
may move the last-login fields, and every previous row still has an
id-matched successor. -/
def StepOK (st st' : Store) (authOK : Bool) : Prop :=
  nodupIds st' ∧
  (∀ u, u ∈ st → ∀ u', u' ∈ st' → u'.id = u.id →
    u.login_count ≤ u'.login_count ∧
    ((u'.last_login_at ≠ u.last_login_at ∨ u'.last_login_ip ≠ u.last_login_ip) →
      authOK = true)) ∧
  (∀ u, u ∈ st → ∃ u', u' ∈ st' ∧ u'.id = u.id ∧ u.login_count ≤ u'.login_count)

theorem stepOK_refl {st : Store} (hnd : nodupIds st) (b : Bool) : StepOK st st b := by
  refine ⟨hnd, ?_, ?_⟩
  · intro u hu u' hu' hid
    have heq : u' = u := nodupIds_eq hnd hu' hu hid
    subst heq
    exact ⟨le_refl _, fun hch => absurd rfl (by tauto)⟩
  · intro u hu
    exact ⟨u, hu, rfl, le_refl _⟩

theorem stepOK_replace {st : Store} (hnd : nodupIds st) (u0 w : UserRow)
    (hu0 : u0 ∈ st) (hid : w.id = u0.id) (hcount : u0.login_count ≤ w.login_count)
    (b : Bool)
    (hlast : (w.last_login_at = u0.last_login_at ∧ w.last_login_ip = u0.last_login_ip) ∨
      b = true) :
    StepOK st (storeReplace st w) b := by
  refine ⟨nodupIds_storeReplace hnd w, ?_, ?_⟩
  · intro u hu u' hu' hid'
    rcases mem_storeReplace hu' with rfl | ⟨hmem, hne⟩
    · have huu0 : u = u0 := nodupIds_eq hnd hu hu0 (hid' ▸ hid.symm ▸ rfl)
      subst huu0
      refine ⟨hcount, ?_⟩
      rcases hlast with ⟨h1, h2⟩ | hb
      · intro hch
        rcases hch with hch | hch
        · exact absurd h1 hch
        · exact absurd h2 hch
      · intro _
        exact hb
    · have heq : u' = u := nodupIds_eq hnd hmem hu hid'
      subst heq
      exact ⟨le_refl _, fun hch => absurd rfl (by tauto)⟩
  · intro u hu
    by_cases hcase : u.id = w.id
    · have huu0 : u = u0 := nodupIds_eq hnd hu hu0 (hcase.trans hid)
      subst huu0
      exact ⟨w, mem_storeReplace_self hu hcase, hid ▸ rfl, hcount⟩
    · exact ⟨u, mem_storeReplace_of_ne hu hcase, rfl, le_refl _⟩

theorem stepOK_append {st : Store} (hnd : nodupIds st) {row : UserRow}
    (hfresh : ∀ u ∈ st, u.id ≠ row.id) (b : Bool) : StepOK st (st ++ [row]) b := by
  refine ⟨?_, ?_, ?_⟩
  · refine List.pairwise_append.mpr ⟨hnd, by simp, ?_⟩
    intro a ha c hc
    rw [List.mem_singleton.mp hc]
    exact hfresh a ha
  · intro u hu u' hu' hid
    rcases List.mem_append.mp hu' with hmem | hrow
    · have heq : u' = u := nodupIds_eq hnd hmem hu hid
      subst heq
      exact ⟨le_refl _, fun hch => absurd rfl (by tauto)⟩
    · rw [List.mem_singleton.mp hrow] at hid
      exact absurd (hid ▸ rfl) (hfresh u hu)
  · intro u hu
    exact ⟨u, List.mem_append.mpr (Or.inl hu), rfl, le_refl _⟩

theorem createUser_store_cases (st : Store) (d : CreateData) (today : SimpleDate) (now : Nat) :
    (createUser st d today now).2 = st ∨
    (createUser st d today now).2 =
      st ++ [(repoCreate st (userDataToCreate d (bcryptHash 12 (d.password.getD ""))) now).1] := by
  simp only [createUser]
  split_ifs <;> first | exact Or.inl rfl | exact Or.inr rfl

theorem updateUser_store_cases (st : Store) (id : Nat) (d : UpdateData) (today : SimpleDate)
    (now : Nat) :
    (updateUser st id d today now).2 = st ∨
    ∃ u0, findById st id = some u0 ∧
      (updateUser st id d today now).2 =
        storeReplace st (applyUpdateData u0 (preparedUpdate d) now) := by
  simp only [updateUser]
  split_ifs with h1
  · exact Or.inl rfl
  · cases hfind : findById st id with
    | none => exact Or.inl rfl
    | some u0 =>
      dsimp only
      split_ifs with h2 h3
      · exact Or.inl rfl
      · exact Or.inl rfl
      · right
        refine ⟨u0, rfl, ?_⟩
        have hrepo : (repoUpdate st id (preparedUpdate d) now).2 =
            storeReplace st (applyUpdateData u0 (preparedUpdate d) now) := by
          simp only [repoUpdate]
          rw [hfind]
        cases hm : (repoUpdate st id (preparedUpdate d) now).1 <;> exact hrepo

theorem deleteUser_store_cases (st : Store) (id now : Nat) :
    (deleteUser st id now).2 = st ∨
    ∃ u0, findById st id = some u0 ∧
      (deleteUser st id now).2 = storeReplace st { u0 with deleted_at := some now } := by
  simp only [deleteUser, softDelete]
  cases hfind : findById st id with
  | none => exact Or.inl rfl
  | some u0 => exact Or.inr ⟨u0, rfl, rfl⟩

theorem verifyEmail_store_cases (st : Store) (id now : Nat) :
    (verifyEmail st id now).2 = st ∨
    ∃ u0, findById st id = some u0 ∧
      (verifyEmail st id now).2 =
        storeReplace st (applyUpdateData u0
          { email_verified := some true, email_verified_at := some now } now) := by
  simp only [verifyEmail]
  cases hfind : findById st id with
  | none => exact Or.inl rfl
  | some u0 =>
    dsimp only
    split_ifs with h1
    · exact Or.inl rfl
    · right
      refine ⟨u0, rfl, ?_⟩
      have hrepo : (repoUpdate st id
          { email_verified := some true, email_verified_at := some now } now).2 =
          storeReplace st (applyUpdateData u0
            { email_verified := some true, email_verified_at := some now } now) := by
        simp only [repoUpdate]
        rw [hfind]
      cases hm : (repoUpdate st id
          { email_verified := some true, email_verified_at := some now } now).1 <;>
        exact hrepo

theorem authenticateUser_store_cases (st : Store) (identifier password : String)
    (loginIp : Option String) (now : Nat) :
    (authenticateUser st identifier password loginIp now).2 = st ∨
    ∃ u0, findByUsernameOrEmail st identifier = some u0 ∧
      (authenticateUser st identifier password loginIp now).1.success = true ∧
      (authenticateUser st identifier password loginIp now).2 =
        storeReplace st (updateLastLogin u0 now loginIp) := by
  simp only [authenticateUser]
  cases hfind : findByUsernameOrEmail st identifier with
  | none => exact Or.inl rfl
  | some u0 =>
    dsimp only
    split_ifs with h1 h2
    · exact Or.inl rfl
    · exact Or.inl rfl
    · exact Or.inr ⟨u0, rfl, rfl, rfl⟩

theorem applyUpdateData_id (u : UserRow) (d : UpdateData) (now : Nat) :
    (applyUpdateData u d now).id = u.id := by
  simp only [applyUpdateData]
  split <;> rfl

theorem applyUpdateData_login_count (u : UserRow) (d : UpdateData) (now : Nat)
    (h : d.login_count = none) :
    (applyUpdateData u d now).login_count = u.login_count := by
  simp only [applyUpdateData]
  split <;> simp [h]

theorem applyUpdateData_last_login (u : UserRow) (d : UpdateData) (now : Nat)
    (hat : d.last_login_at = none) (hip : d.last_login_ip = none) :
    (applyUpdateData u d now).last_login_at = u.last_login_at ∧
    (applyUpdateData u d now).last_login_ip = u.last_login_ip := by
  simp only [applyUpdateData]
  split <;> simp [hat, hip]

theorem preparedUpdate_bookkeeping (d : UpdateData) :
    (preparedUpdate d).login_count = d.login_count ∧
    (preparedUpdate d).last_login_at = d.last_login_at ∧
    (preparedUpdate d).last_login_ip = d.last_login_ip := by
  refine ⟨?_, ?_, ?_⟩ <;>
  · simp only [preparedUpdate]
    split <;> split <;> rfl

theorem applyOp_benign_step {st : Store} {op : SvcOp} (hnd : nodupIds st)
    (hb : benignOp op = true) : StepOK st (applyOp st op) (isSuccessfulAuth st op) := by
  cases op with
  | create d today now =>
    show StepOK st (createUser st d today now).2 _
    rcases createUser_store_cases st d today now with hst | hst
    · rw [hst]
      exact stepOK_refl hnd _
    · rw [hst]
      refine stepOK_append hnd ?_ _
      intro u hu
      have hlt := mem_id_lt_nextId hu
      have hrowid : (repoCreate st
          (userDataToCreate d (bcryptHash 12 (d.password.getD ""))) now).1.id =
          (st.map (fun v => v.id)).foldr max 0 + 1 := rfl
      omega
  | update id d today now =>
    show StepOK st (updateUser st id d today now).2 _
    rcases updateUser_store_cases st id d today now with hst | ⟨u0, hfind, hst⟩
    · rw [hst]
      exact stepOK_refl hnd _
    · rw [hst]
      have hu0 := List.mem_of_find?_eq_some hfind
      have hp := List.find?_some hfind
      rw [Bool.and_eq_true, decide_eq_true_eq] at hp
      have hb3 : (d.login_count = none ∧ d.last_login_at = none) ∧ d.last_login_ip = none := by
        simpa [benignOp] using hb
      obtain ⟨⟨hbc, hba⟩, hbi⟩ := hb3
      obtain ⟨hpc, hpa, hpi⟩ := preparedUpdate_bookkeeping d
      refine stepOK_replace hnd u0 (applyUpdateData u0 (preparedUpdate d) now) hu0
        (applyUpdateData_id _ _ _) ?_ _ (Or.inl ?_)
      · rw [applyUpdateData_login_count _ _ _ (hpc.trans hbc)]
      · exact applyUpdateData_last_login _ _ _ (hpa.trans hba) (hpi.trans hbi)
  | delete id now =>
    show StepOK st (deleteUser st id now).2 _
    rcases deleteUser_store_cases st id now with hst | ⟨u0, hfind, hst⟩
    · rw [hst]
      exact stepOK_refl hnd _
    · rw [hst]
      exact stepOK_replace hnd u0 { u0 with deleted_at := some now }
        (List.mem_of_find?_eq_some hfind) rfl (le_refl _) _ (Or.inl ⟨rfl, rfl⟩)
  | verify id now =>
    show StepOK st (verifyEmail st id now).2 _
    rcases verifyEmail_store_cases st id now with hst | ⟨u0, hfind, hst⟩
    · rw [hst]
      exact stepOK_refl hnd _
    · rw [hst]
      refine stepOK_replace hnd u0
        (applyUpdateData u0 { email_verified := some true, email_verified_at := some now } now)
        (List.mem_of_find?_eq_some hfind) (applyUpdateData_id _ _ _) ?_ _ (Or.inl ?_)
      · rw [applyUpdateData_login_count _ _ _ rfl]
      · exact applyUpdateData_last_login _ _ _ rfl rfl
  | auth identifier password loginIp now =>
    show StepOK st (authenticateUser st identifier password loginIp now).2 _
    rcases authenticateUser_store_cases st identifier password loginIp now with
      hst | ⟨u0, hfind, hsucc, hst⟩
    · rw [hst]
      exact stepOK_refl hnd _
    · rw [hst]
      refine stepOK_replace hnd u0 (updateLastLogin u0 now loginIp)
        (List.mem_of_find?_eq_some hfind) rfl ?_ _ (Or.inr ?_)
      · show u0.login_count ≤ u0.login_count + 1
        omega
      · show (authenticateUser st identifier password loginIp now).1.success = true
        exact hsucc

theorem runOps_login_count_mono (ops : List SvcOp) :
    ∀ st : Store, nodupIds st → (∀ op ∈ ops, benignOp op = true) →
      ∀ u, u ∈ st → ∀ u', u' ∈ runOps st ops → u'.id = u.id →
        u.login_count ≤ u'.login_count := by
  induction ops with
  | nil =>
    intro st hnd _ u hu u' hu' hid
    have heq : u' = u := nodupIds_eq hnd hu' hu hid
    rw [heq]
  | cons op ops ih =>
    intro st hnd hb u hu u' hu' hid
    obtain ⟨hnd', hmatch, hex⟩ := applyOp_benign_step hnd (hb op (List.mem_cons_self _ _))
    obtain ⟨u2, hmem2, hid2, hle2⟩ := hex u hu
    have hbops : ∀ o ∈ ops, benignOp o = true := fun o ho => hb o (List.mem_cons_of_mem _ ho)
    have hrest := ih (applyOp st op) hnd' hbops u2 hmem2 u' hu' (hid.trans hid2.symm)
    omega

/-- C4 (amended): across every sequence of service operations whose update
payloads leave the login-bookkeeping attributes unset, each user's
`login_count` never decreases; and in a single such operation, a row's
`last_login_at` or `last_login_ip` can change only through an
`authenticateUser` call that succeeds.  (The unrestricted claim fails:
`updateUser` forwards a payload's `login_count`/`last_login_at`/
`last_login_ip` straight to the ORM.) -/
theorem login_bookkeeping_invariant :
    (∀ (st : Store) (ops : List SvcOp), nodupIds st →
      (∀ op ∈ ops, benignOp op = true) →
      ∀ u, u ∈ st → ∀ u', u' ∈ runOps st ops → u'.id = u.id →
        u.login_count ≤ u'.login_count) ∧
    (∀ (st : Store) (op : SvcOp), nodupIds st → benignOp op = true →
      ∀ u, u ∈ st → ∀ u', u' ∈ applyOp st op → u'.id = u.id →
        (u'.last_login_at ≠ u.last_login_at ∨ u'.last_login_ip ≠ u.last_login_ip) →
        isSuccessfulAuth st op = true) := by
  constructor
  · intro st ops hnd hb
    exact runOps_login_count_mono ops st hnd hb
  · intro st op hnd hb u hu u' hu' hid hch
    obtain ⟨-, hmatch, -⟩ := applyOp_benign_step hnd hb
    exact (hmatch u hu u' hu' hid).2 hch

/-- Concrete store for the C4 counterexample: one user with five recorded
logins. -/
def c4Store : Store :=
  [{ id := 1, username := "alice", email := "alice@x.co", password_hash := "h",
     login_count := 5, last_login_at := some 3 }]

/-- C4 counterexample: `updateUser` with `login_count: 0` in the payload is
accepted and drops the stored `login_count` from 5 to 0, and a payload
carrying `last_login_at` rewrites that field without any authentication. -/
theorem login_bookkeeping_counterexample :
    nodupIds c4Store ∧
    c4Store.map (fun u => u.login_count) = [5] ∧
    (updateUser c4Store 1 { login_count := some 0 } ⟨2026, 10, 11⟩ 7).1.success = true ∧
    (updateUser c4Store 1 { login_count := some 0 } ⟨2026, 10, 11⟩ 7).2.map
      (fun u => u.login_count) = [0] ∧
    (updateUser c4Store 1 { last_login_at := some 99 } ⟨2026, 10, 11⟩ 7).2.map
      (fun u => u.last_login_at) = [some 99] := by
  refine ⟨by simp [c4Store], by decide, by decide, by decide, by decide⟩

end UserMgmt
